import Mathlib

/-!
Verification of the oliveyoung_product_collector core against its
natural-language specification.  The definitions below are shallow
embeddings of the Python source:

* `isoCalendar` and friends model Python's `date.isocalendar()`
  (the stdlib collaborator used by `retry/utils.py` and
  `api/product_api.py`);
* `get_previous_iso_week` embeds `retry/utils.py`;
* `save_to_history_table` and `get_or_create_brand` embed
  `api/product_api.py`;
* the retry-task state machine embeds `retry/manager.py`;
* the proxy manager embeds `utils/webshare_proxy.py`;
* the backoff wrapper embeds `oliveyoung_collector_curl.py`;
* the request traces and field validation embed
  `collectors/oliveyoung_collector.py`.
-/

/-! ## Gregorian / ISO-8601 calendar

Models Python's `datetime.date` attributes (`.year`, `.month`) and
`date.isocalendar()`, which the source calls in `retry/utils.py`
(`get_current_iso_week`, `get_previous_iso_week`) and in
`api/product_api.py` (`_save_to_history_table`). -/

/-- Gregorian leap-year rule (as in Python's `calendar.isleap`). -/
def isLeapYear (y : Nat) : Bool :=
  (y % 4 == 0 && y % 100 != 0) || (y % 400 == 0)

/-- Cumulative day counts at the start of each month of a non-leap year. -/
def cumDaysBeforeMonth (m : Nat) : Nat :=
  [0, 31, 59, 90, 120, 151, 181, 212, 243, 273, 304, 334].getD (m - 1) 0

/-- Ordinal day of the year of date (y, m, d), starting at 1. -/
def dayOfYear (y m d : Nat) : Nat :=
  cumDaysBeforeMonth m + d + (if 2 < m && isLeapYear y then 1 else 0)

/-- ISO weekday (Monday = 1 .. Sunday = 7) via Zeller's congruence. -/
def isoWeekday (y m d : Nat) : Nat :=
  let zy := if m ≤ 2 then y - 1 else y
  let zm := if m ≤ 2 then m + 12 else m
  let K := zy % 100
  let J := zy / 100
  let h := (d + (13 * (zm + 1)) / 5 + K + K / 4 + J / 4 + 5 * J) % 7
  (h + 5) % 7 + 1

/-- Auxiliary quantity of the ISO long-year rule: the weekday index of
31 December of year `x`. -/
def isoP (x : Nat) : Nat :=
  (x + x / 4 - x / 100 + x / 400) % 7

/-- The standard ISO-8601 long-year predicate: year `y` has 53 ISO weeks
iff 1 January falls on Thursday, or on Wednesday in a leap year
(expressed by the usual `p` formula on `y` and `y - 1`). -/
def isoLongYear (y : Nat) : Bool :=
  isoP y == 4 || isoP (y - 1) == 3

/-- Number of ISO weeks in year `y` (52 or 53). -/
def isoWeeksInYear (y : Nat) : Nat :=
  if isoLongYear y then 53 else 52

/-- ISO calendar (year, week) of date (y, m, d): models the first two
components of Python's `date(y, m, d).isocalendar()`. -/
def isoCalendar (y m d : Nat) : Nat × Nat :=
  let doy := dayOfYear y m d
  let wd := isoWeekday y m d
  let w := (doy + 10 - wd) / 7
  if w = 0 then (y - 1, isoWeeksInYear (y - 1))
  else if w == 53 && !isoLongYear y then (y + 1, 1)
  else (y, w)

/-- Embeds `retry/utils.py::get_previous_iso_week`: week > 1 steps back one
week within the same year; week 1 steps to the prior year, whose final week
number is read off `date(previous_year, 12, 28).isocalendar()[1]`. -/
def get_previous_iso_week (current_year current_week : Nat) : Nat × Nat :=
  if current_week > 1 then
    (current_year, current_week - 1)
  else
    let previous_year := current_year - 1
    let last_week_of_previous_year := (isoCalendar previous_year 12 28).2
    (previous_year, last_week_of_previous_year)

/-! ### December 28 always falls in the last ISO week of its year

Proved for every year `y ≥ 1` by a 400-year periodicity argument: the
Gregorian calendar repeats with period 400 years (146097 days, a multiple
of 7), so the statement reduces to the finitely many years below 401. -/

lemma isoWeekday_dec28_eq (y : Nat) :
    isoWeekday y 12 28 =
      ((28 + 33 + y % 100 + y % 100 / 4 + y / 100 / 4 + 5 * (y / 100)) % 7 + 5) % 7 + 1 :=
  rfl

lemma dayOfYear_dec28_eq (y : Nat) :
    dayOfYear y 12 28 = 362 + (if isLeapYear y then 1 else 0) :=
  rfl

lemma isLeapYear_add_400 (y : Nat) : isLeapYear (y + 400) = isLeapYear y := by
  have h4 : (y + 400) % 4 = y % 4 := by omega
  have h100 : (y + 400) % 100 = y % 100 := by omega
  have h400 : (y + 400) % 400 = y % 400 := by omega
  simp [isLeapYear, h4, h100, h400]

lemma isoWeekday_dec28_add_400 (y : Nat) :
    isoWeekday (y + 400) 12 28 = isoWeekday y 12 28 := by
  have h1 : (y + 400) % 100 = y % 100 := by omega
  have h2 : (y + 400) / 100 = y / 100 + 4 := by omega
  rw [isoWeekday_dec28_eq, isoWeekday_dec28_eq, h1, h2]
  have h3 : (y / 100 + 4) / 4 = y / 100 / 4 + 1 := by omega
  rw [h3]
  omega

lemma isoP_add_400 (x : Nat) : isoP (x + 400) = isoP x := by
  unfold isoP
  omega

lemma isoLongYear_add_400 (y : Nat) (hy : 1 ≤ y) :
    isoLongYear (y + 400) = isoLongYear y := by
  unfold isoLongYear
  have h1 : y + 400 - 1 = (y - 1) + 400 := by omega
  rw [isoP_add_400, h1, isoP_add_400]

lemma isoWeeksInYear_add_400 (y : Nat) (hy : 1 ≤ y) :
    isoWeeksInYear (y + 400) = isoWeeksInYear y := by
  unfold isoWeeksInYear
  rw [isoLongYear_add_400 y hy]

set_option maxRecDepth 4000 in
lemma dec28_last_week_base :
    ∀ y < 401, 1 ≤ y → isoCalendar y 12 28 = (y, isoWeeksInYear y) := by
  decide

lemma isoCalendar_dec28_add_400 (y : Nat) (hy : 1 ≤ y)
    (ih : isoCalendar y 12 28 = (y, isoWeeksInYear y)) :
    isoCalendar (y + 400) 12 28 = (y + 400, isoWeeksInYear (y + 400)) := by
  have hdoy : dayOfYear (y + 400) 12 28 = dayOfYear y 12 28 := by
    rw [dayOfYear_dec28_eq, dayOfYear_dec28_eq, isLeapYear_add_400]
  have hwd := isoWeekday_dec28_add_400 y
  have hly := isoLongYear_add_400 y hy
  have hwk := isoWeeksInYear_add_400 y hy
  simp only [isoCalendar] at ih ⊢
  rw [hdoy, hwd, hly, hwk]
  set w := (dayOfYear y 12 28 + 10 - isoWeekday y 12 28) / 7 with hw
  by_cases h0 : w = 0
  · rw [if_pos h0] at ih ⊢
    have hcontr : y - 1 = y := congrArg Prod.fst ih
    omega
  · rw [if_neg h0] at ih ⊢
    by_cases h53 : (w == 53 && !isoLongYear y) = true
    · rw [if_pos h53] at ih ⊢
      have hcontr : y + 1 = y := congrArg Prod.fst ih
      omega
    · rw [if_neg h53] at ih ⊢
      have hsnd : w = isoWeeksInYear y := congrArg Prod.snd ih
      rw [hsnd]

/-- December 28 of any year `y ≥ 1` lies in ISO week `isoWeeksInYear y`
of ISO year `y` itself: it is always in the year's final ISO week. -/
lemma isoCalendar_dec28 : ∀ y : Nat, 1 ≤ y →
    isoCalendar y 12 28 = (y, isoWeeksInYear y) := by
  intro y
  induction y using Nat.strong_induction_on with
  | _ y ih =>
    intro hy
    by_cases hlt : y < 401
    · exact dec28_last_week_base y hlt hy
    · have hy400 : 1 ≤ y - 400 := by omega
      have heq : y = (y - 400) + 400 := by omega
      rw [heq]
      exact isoCalendar_dec28_add_400 (y - 400) hy400 (ih (y - 400) (by omega) hy400)

example : isoCalendar 2025 12 29 = (2026, 1) := by decide
example : isoCalendar 2020 12 28 = (2020, 53) := by decide
example : isoCalendar 2021 12 28 = (2021, 52) := by decide
example : isoCalendar 2021 1 1 = (2020, 53) := by decide
example : isoCalendar 2023 1 1 = (2022, 52) := by decide
example : get_previous_iso_week 2021 1 = (2020, 53) := by decide
example : get_previous_iso_week 2022 1 = (2021, 52) := by decide
example : get_previous_iso_week 2025 30 = (2025, 29) := by decide

/-- C5 — ISO week rollover: `get_previous_iso_week Y w` returns
`(Y, w - 1)` for `w > 1`; for `w = 1` it returns `(Y - 1, L)` where `L`
is the ISO week number of December 28 of year `Y - 1`, and that week is
the last ISO week of `Y - 1` (`isoWeeksInYear (Y - 1)`, which is 52 or
53 depending on the year). -/
theorem C5_get_previous_iso_week_rollover (Y w : Nat) :
    (1 < w → get_previous_iso_week Y w = (Y, w - 1)) ∧
    (w = 1 → 2 ≤ Y →
      get_previous_iso_week Y w = (Y - 1, (isoCalendar (Y - 1) 12 28).2) ∧
      (isoCalendar (Y - 1) 12 28).2 = isoWeeksInYear (Y - 1) ∧
      (isoWeeksInYear (Y - 1) = 52 ∨ isoWeeksInYear (Y - 1) = 53)) := by
  constructor
  · intro hw
    unfold get_previous_iso_week
    rw [if_pos hw]
  · intro hw hY
    subst hw
    have hlast := isoCalendar_dec28 (Y - 1) (by omega)
    refine ⟨rfl, ?_, ?_⟩
    · rw [hlast]
    · unfold isoWeeksInYear
      by_cases h : isoLongYear (Y - 1) = true
      · right
        rw [if_pos h]
      · left
        rw [if_neg h]

/-- Witness for C5: instantiated at week 1 of a year preceded by a
53-ISO-week year (2021 → 2020, week 53) and at one preceded by a
52-ISO-week year (2022 → 2021, week 52), and at a mid-year week. -/
theorem C5_get_previous_iso_week_rollover_witness :
    get_previous_iso_week 2021 1 = (2020, 53) ∧ isoWeeksInYear 2020 = 53 ∧
    get_previous_iso_week 2022 1 = (2021, 52) ∧ isoWeeksInYear 2021 = 52 ∧
    get_previous_iso_week 2025 30 = (2025, 29) := by
  have h21 := (C5_get_previous_iso_week_rollover 2021 1).2 rfl (by norm_num)
  have h22 := (C5_get_previous_iso_week_rollover 2022 1).2 rfl (by norm_num)
  have h25 := (C5_get_previous_iso_week_rollover 2025 30).1 (by norm_num)
  refine ⟨?_, by decide, ?_, by decide, h25⟩
  · rw [h21.1, h21.2.1]
    decide
  · rw [h22.1, h22.2.1]
    decide

/-! ## Retry-task state machine (retry/manager.py)

Embeds the `CosmeticsProductsHistoryRetries` rows (models/database.py)
and the lifecycle driven by `RetryManager._process_retry_queue`. -/

inductive RetryStatus
  | pending
  | processing
  | failed
  | success
  | maxRetriesReached
  | productDeleted
deriving DecidableEq, Repr

structure RetryTask where
  goods_no : String
  disp_cat_no : String
  target_year : Nat
  target_week_of_year : Nat
  status : RetryStatus
  attempt_count : Nat
  max_attempts : Nat
  error_message : Option String
deriving DecidableEq, Repr

/-- Embeds the row created by `_create_retry_records` for a missing
product: status `pending`, zero attempts, three attempts allowed. -/
def mkRetryRecord (goods_no disp_cat_no : String) (target_year target_week : Nat) : RetryTask :=
  { goods_no := goods_no
    disp_cat_no := disp_cat_no
    target_year := target_year
    target_week_of_year := target_week
    status := .pending
    attempt_count := 0
    max_attempts := 3
    error_message := none }

/-- A status from which the queue may pick the task up again. -/
def retryable (s : RetryStatus) : Bool :=
  s == .pending || s == .failed

/-- The selection condition of the queue query in `_process_retry_queue`
(restricted to one task; the year and week restriction is in
`select_retry_queue`). -/
def eligible (t : RetryTask) : Bool :=
  retryable t.status && t.attempt_count < t.max_attempts

/-- Embeds the queue query at the top of `_process_retry_queue`: tasks of
the target week whose status is `pending` or `failed` and whose attempt
count is strictly below `max_attempts`. -/
def select_retry_queue (tasks : List RetryTask) (target_year target_week : Nat) :
    List RetryTask :=
  tasks.filter (fun t =>
    t.target_year == target_year && t.target_week_of_year == target_week &&
      retryable t.status && t.attempt_count < t.max_attempts)

/-- Result of `collect_and_save_single_product` as consumed by the retry
loop: the string sentinel 'deleted', `True`, or `False`; an exception
raised inside the attempt drives the same transitions as `False`. -/
inductive CollectResult
  | deleted
  | ok
  | failed
deriving DecidableEq, Repr

/-- Embeds one iteration of the per-item loop of `_process_retry_queue`
(lines 283-370): the task is first set to `processing` with
`attempt_count` incremented, then the collection outcome decides the
final status; a failure with the incremented count at or above
`max_attempts` is terminal (`max_retries_reached`). -/
def process_retry_item (t : RetryTask) (r : CollectResult) : RetryTask :=
  let t1 := { t with status := RetryStatus.processing, attempt_count := t.attempt_count + 1 }
  match r with
  | .deleted =>
      { t1 with status := .productDeleted
                error_message := some "상품이 삭제되었거나 더 이상 존재하지 않습니다." }
  | .ok => { t1 with status := .success, error_message := none }
  | .failed =>
      if t1.attempt_count ≥ t1.max_attempts then
        { t1 with status := .maxRetriesReached, error_message := some "제품 수집 또는 저장 실패" }
      else
        { t1 with status := .failed, error_message := some "제품 수집 또는 저장 실패" }

/-- One scheduling step of the retry state machine: a task is processed
only when the queue would select it (eligible), with some outcome. -/
inductive RetryStep : RetryTask → RetryTask → Prop
  | mk (t : RetryTask) (r : CollectResult) (h : eligible t = true) :
      RetryStep t (process_retry_item t r)

/-- Multi-step reachability of the retry state machine. -/
def RetryReachable (t t' : RetryTask) : Prop :=
  Relation.ReflTransGen RetryStep t t'

/-- A run in which every attempt fails: `k` processing passes, each with
outcome `failed`. -/
def failRun (t : RetryTask) : Nat → RetryTask
  | 0 => t
  | n + 1 => process_retry_item (failRun t n) .failed

lemma process_retry_item_attempt_count (t : RetryTask) (r : CollectResult) :
    (process_retry_item t r).attempt_count = t.attempt_count + 1 := by
  cases r with
  | deleted => rfl
  | ok => rfl
  | failed =>
    simp only [process_retry_item]
    split
    · rfl
    · rfl

lemma process_retry_item_max_attempts (t : RetryTask) (r : CollectResult) :
    (process_retry_item t r).max_attempts = t.max_attempts := by
  cases r with
  | deleted => rfl
  | ok => rfl
  | failed =>
    simp only [process_retry_item]
    split
    · rfl
    · rfl

lemma retry_step_invariant (t t' : RetryTask)
    (hstep : RetryStep t t')
    (_hinv : retryable t.status = true → t.attempt_count ≤ t.max_attempts) :
    retryable t'.status = true → t'.attempt_count ≤ t'.max_attempts := by
  cases hstep with
  | mk r helig =>
    intro hret
    have hlt : t.attempt_count < t.max_attempts := by
      have h := helig
      simp [eligible] at h
      exact h.2
    rw [process_retry_item_attempt_count, process_retry_item_max_attempts]
    omega

lemma retry_reachable_invariant (t t' : RetryTask)
    (h : RetryReachable t t')
    (hinv : retryable t.status = true → t.attempt_count ≤ t.max_attempts) :
    retryable t'.status = true → t'.attempt_count ≤ t'.max_attempts := by
  induction h with
  | refl => exact hinv
  | tail _ hstep ih => exact retry_step_invariant _ _ hstep ih

lemma failRun_state (t0 : RetryTask) (h0 : t0.status = .pending)
    (hc : t0.attempt_count = 0) (hm : 1 ≤ t0.max_attempts) :
    ∀ k, k ≤ t0.max_attempts →
      (failRun t0 k).attempt_count = k ∧
      (failRun t0 k).max_attempts = t0.max_attempts ∧
      (failRun t0 k).status =
        (if k = 0 then RetryStatus.pending
         else if k < t0.max_attempts then RetryStatus.failed
         else RetryStatus.maxRetriesReached) := by
  intro k
  induction k with
  | zero =>
    intro _
    simp [failRun, hc, h0]
  | succ n ih =>
    intro hk
    obtain ⟨ihc, ihm, ihs⟩ := ih (by omega)
    refine ⟨?_, ?_, ?_⟩
    · rw [failRun, process_retry_item_attempt_count, ihc]
    · rw [failRun, process_retry_item_max_attempts, ihm]
    · rw [failRun]
      by_cases hend : n + 1 ≥ t0.max_attempts
      · have : (process_retry_item (failRun t0 n) .failed).status =
            RetryStatus.maxRetriesReached := by
          simp only [process_retry_item]
          rw [if_pos (by rw [ihc, ihm]; omega)]
        rw [this]
        rw [if_neg (by omega), if_neg (by omega)]
      · have : (process_retry_item (failRun t0 n) .failed).status =
            RetryStatus.failed := by
          simp only [process_retry_item]
          rw [if_neg (by rw [ihc, ihm]; omega)]
        rw [this]
        rw [if_neg (by omega), if_pos (by omega)]

lemma failRun_reachable (t0 : RetryTask) (h0 : t0.status = .pending)
    (hc : t0.attempt_count = 0) (hm : 1 ≤ t0.max_attempts) :
    ∀ k, k ≤ t0.max_attempts → RetryReachable t0 (failRun t0 k) := by
  intro k
  induction k with
  | zero => intro _; exact Relation.ReflTransGen.refl
  | succ n ih =>
    intro hk
    obtain ⟨ihc, ihm, ihs⟩ := failRun_state t0 h0 hc hm n (by omega)
    refine Relation.ReflTransGen.tail (ih (by omega)) ?_
    have hret : retryable (failRun t0 n).status = true := by
      rw [ihs]
      by_cases hn : n = 0
      · rw [if_pos hn]; rfl
      · rw [if_neg hn, if_pos (by omega)]; rfl
    have helig : eligible (failRun t0 n) = true := by
      unfold eligible
      rw [hret, ihc, ihm]
      simp only [Bool.true_and, decide_eq_true_eq]
      omega
    exact RetryStep.mk (failRun t0 n) .failed helig

/-- C2 — Retry attempt bound: the queue selects only pending/failed tasks
with `attempt_count < max_attempts`; each processing pass increments the
count exactly once; a failing pass whose incremented count reaches
`max_attempts` lands in the terminal `max_retries_reached` state from
which no further step exists; along every reachable sequence of steps the
count never exceeds `max_attempts` while the status is retryable; and a
task failing on every attempt reaches `max_retries_reached` after exactly
`max_attempts` increments. -/
theorem C2_retry_attempt_bound (tasks : List RetryTask) (ty tw : Nat)
    (t u' : RetryTask) (r : CollectResult) (t0 : RetryTask)
    (h0 : t0.status = .pending) (hc : t0.attempt_count = 0)
    (hm : 1 ≤ t0.max_attempts) :
    (∀ s ∈ select_retry_queue tasks ty tw,
      (s.status = .pending ∨ s.status = .failed) ∧ s.attempt_count < s.max_attempts) ∧
    ((process_retry_item t r).attempt_count = t.attempt_count + 1) ∧
    (t.attempt_count + 1 ≥ t.max_attempts →
      (process_retry_item t .failed).status = .maxRetriesReached) ∧
    (∀ v v', v.status = .maxRetriesReached → ¬ RetryStep v v') ∧
    (RetryReachable t0 u' → retryable u'.status = true →
      u'.attempt_count ≤ u'.max_attempts) ∧
    ((failRun t0 t0.max_attempts).status = .maxRetriesReached ∧
      (failRun t0 t0.max_attempts).attempt_count = t0.max_attempts ∧
      RetryReachable t0 (failRun t0 t0.max_attempts)) := by
  refine ⟨?_, process_retry_item_attempt_count t r, ?_, ?_, ?_, ?_⟩
  · intro s hs
    unfold select_retry_queue at hs
    rw [List.mem_filter] at hs
    have hb := hs.2
    simp only [Bool.and_eq_true, decide_eq_true_eq] at hb
    refine ⟨?_, hb.2⟩
    have hr := hb.1.2
    unfold retryable at hr
    simp only [Bool.or_eq_true, beq_iff_eq] at hr
    exact hr
  · intro hge
    simp only [process_retry_item]
    rw [if_pos (by simpa using hge)]
  · intro v v' hstat hstep
    cases hstep with
    | mk r helig =>
      unfold eligible retryable at helig
      rw [hstat] at helig
      simp at helig
  · intro hreach hret
    refine retry_reachable_invariant t0 u' hreach ?_ hret
    intro _
    omega
  · obtain ⟨hcnt, hmax, hstat⟩ :=
      failRun_state t0 h0 hc hm t0.max_attempts (by omega)
    refine ⟨?_, hcnt, failRun_reachable t0 h0 hc hm t0.max_attempts (by omega)⟩
    rw [hstat, if_neg (by omega), if_neg (by omega)]

/-- Witness for C2: a concrete fresh retry record (3 attempts allowed)
run through the theorem; evaluating `failRun` on it shows the terminal
state `max_retries_reached` is reached after exactly 3 increments. -/
theorem C2_retry_attempt_bound_witness :
    (failRun (mkRetryRecord "A000000148402" "100000100010008" 2025 30) 3).status =
        RetryStatus.maxRetriesReached ∧
    (failRun (mkRetryRecord "A000000148402" "100000100010008" 2025 30) 3).attempt_count = 3 := by
  have h := C2_retry_attempt_bound [] 2025 30
    (mkRetryRecord "A000000148402" "100000100010008" 2025 30)
    (mkRetryRecord "A000000148402" "100000100010008" 2025 30)
    CollectResult.failed
    (mkRetryRecord "A000000148402" "100000100010008" 2025 30)
    rfl rfl (by decide)
  exact ⟨h.2.2.2.2.2.1, h.2.2.2.2.2.2.1⟩

/-! ## Category-empty short-circuit (retry/manager.py, step 3) -/

/-- Result of `collect_rankings` as consumed by the retry loop: either
the category-empty sentinel `{'category_empty': True}` or a map from
goods number to rank. -/
inductive RankResult
  | categoryEmpty
  | ranks (m : List (String × Nat))
deriving DecidableEq, Repr

/-- Embeds `_mark_category_products_as_deleted`: every task of the
category group is set to `product_deleted`. -/
def mark_category_products_as_deleted (items : List RetryTask) : List RetryTask :=
  items.map (fun t =>
    { t with status := RetryStatus.productDeleted
             error_message := some "카테고리가 비어있어 상품이 삭제된 것으로 판단됨" })

/-- Embeds the per-category body of `_process_retry_queue` (step 3):
popularity-sort rank collection and its category-empty short-circuit,
sales-sort rank collection and its category-empty double-check, then the
per-item retry loop.  The second component lists the goods numbers for
which `collect_and_save_single_product` was invoked. -/
def process_category_group (items : List RetryTask)
    (pop_rankings sales_rankings : RankResult)
    (collect : String → CollectResult) : List RetryTask × List String :=
  match pop_rankings with
  | .categoryEmpty => (mark_category_products_as_deleted items, [])
  | .ranks _ =>
    match sales_rankings with
    | .categoryEmpty => (mark_category_products_as_deleted items, [])
    | .ranks _ =>
      (items.map (fun t => process_retry_item t (collect t.goods_no)),
        items.map (fun t => t.goods_no))

/-- C3 — Category-empty short-circuit: if rank collection returns the
category-empty sentinel under either sort order, every retry task in the
group ends in status `product_deleted` and no
`collect_and_save_single_product` call is made for the category. -/
theorem C3_category_empty_short_circuit (items : List RetryTask)
    (pop_rankings sales_rankings : RankResult) (collect : String → CollectResult)
    (h : pop_rankings = .categoryEmpty ∨ sales_rankings = .categoryEmpty) :
    (∀ t ∈ (process_category_group items pop_rankings sales_rankings collect).1,
      t.status = RetryStatus.productDeleted) ∧
    (process_category_group items pop_rankings sales_rankings collect).2 = [] := by
  have hmark : ∀ t ∈ mark_category_products_as_deleted items,
      t.status = RetryStatus.productDeleted := by
    intro t ht
    unfold mark_category_products_as_deleted at ht
    rw [List.mem_map] at ht
    obtain ⟨s, _, rfl⟩ := ht
    rfl
  rcases h with h | h
  · subst h
    exact ⟨hmark, rfl⟩
  · subst h
    cases pop_rankings with
    | categoryEmpty => exact ⟨hmark, rfl⟩
    | ranks m => exact ⟨hmark, rfl⟩

/-- Witness for C3: a two-task category group whose popularity-sort rank
collection reports the category empty; both tasks end `product_deleted`
and the collect-call list is empty. -/
theorem C3_category_empty_short_circuit_witness :
    (∀ t ∈ (process_category_group
        [mkRetryRecord "A1" "C1" 2025 30, mkRetryRecord "A2" "C1" 2025 30]
        RankResult.categoryEmpty (RankResult.ranks []) (fun _ => CollectResult.failed)).1,
      t.status = RetryStatus.productDeleted) ∧
    (process_category_group
        [mkRetryRecord "A1" "C1" 2025 30, mkRetryRecord "A2" "C1" 2025 30]
        RankResult.categoryEmpty (RankResult.ranks []) (fun _ => CollectResult.failed)).2 = [] :=
  C3_category_empty_short_circuit _ _ _ _ (Or.inl rfl)

/-! ## Webshare proxy manager (utils/webshare_proxy.py)

Embeds `WebshareProxyManager.get_random_proxy` and `mark_proxy_failed`
for the cache-valid case (the proxy list is served from the cache, so no
network call is modelled).  `random.choice` is modelled by an index
parameter reduced modulo the candidate-list length. -/

structure Proxy where
  id : Nat
  valid : Bool
deriving DecidableEq, Repr

structure ProxyManagerState where
  proxyCache : List Proxy
  failedProxies : List Nat
deriving DecidableEq, Repr

/-- Embeds `mark_proxy_failed`: adds the proxy id to the failed set
(a Python falsy id — 0 — is skipped by the `if proxy_id:` guard). -/
def mark_proxy_failed (st : ProxyManagerState) (p : Proxy) : ProxyManagerState :=
  if p.id ≠ 0 then { st with failedProxies := p.id :: st.failedProxies }
  else st

/-- Embeds `get_random_proxy`: filter cached proxies to valid ones not in
the failed set; if none remain, clear the failed set and retry over all
valid proxies; pick a pseudo-random element of the remaining list. -/
def get_random_proxy (st : ProxyManagerState) (choice : Nat) :
    Option Proxy × ProxyManagerState :=
  let proxies := st.proxyCache
  if proxies.isEmpty then (none, st)
  else
    let valid_proxies := proxies.filter
      (fun p => p.valid && !(st.failedProxies.contains p.id))
    if valid_proxies.isEmpty then
      let st1 := { st with failedProxies := [] }
      let valid_proxies1 := proxies.filter (fun p => p.valid)
      if valid_proxies1.isEmpty then (none, st1)
      else (valid_proxies1.get? (choice % valid_proxies1.length), st1)
    else (valid_proxies.get? (choice % valid_proxies.length), st)

/-- C7 counterexample: with a cache holding a single valid proxy that has
been marked failed, `get_random_proxy` clears the failed set and returns
that very proxy even though the proxy list was never refreshed — the
quarantine claim is false as stated. -/
theorem C7_failed_proxy_quarantine_counterexample :
    (1 : Nat) ∈ (mark_proxy_failed ⟨[⟨1, true⟩], []⟩ ⟨1, true⟩).failedProxies ∧
    (get_random_proxy (mark_proxy_failed ⟨[⟨1, true⟩], []⟩ ⟨1, true⟩) 0).1 =
      some ⟨1, true⟩ := by
  constructor
  · decide
  · rfl

/-- C7 (amended) — Failed-proxy quarantine with a non-exhausted pool: as
long as at least one cached proxy is valid and not in the failed set,
`get_random_proxy` never returns a proxy from the failed set (and the
returned proxy is valid); only when every valid proxy has been marked
failed does the manager clear the failed set and hand out a previously
failed proxy. -/
theorem C7_failed_proxy_quarantine (st : ProxyManagerState) (choice : Nat)
    (q : Proxy)
    (hpool : ∃ p ∈ st.proxyCache, p.valid = true ∧ p.id ∉ st.failedProxies)
    (hq : (get_random_proxy st choice).1 = some q) :
    q.valid = true ∧ q.id ∉ st.failedProxies := by
  obtain ⟨p, hp, hpv, hpf⟩ := hpool
  have hne : st.proxyCache.isEmpty = false := by
    cases hcache : st.proxyCache with
    | nil => rw [hcache] at hp; exact absurd hp (List.not_mem_nil p)
    | cons a l => rfl
  have hmem : p ∈ st.proxyCache.filter
      (fun p => p.valid && !(st.failedProxies.contains p.id)) := by
    rw [List.mem_filter]
    refine ⟨hp, ?_⟩
    have hc : st.failedProxies.contains p.id = false := by
      cases hc : st.failedProxies.contains p.id with
      | false => rfl
      | true => exact absurd (List.mem_of_elem_eq_true hc) hpf
    rw [hpv, hc]
    rfl
  have hfilterne : (st.proxyCache.filter
      (fun p => p.valid && !(st.failedProxies.contains p.id))).isEmpty = false := by
    cases hf : st.proxyCache.filter
        (fun p => p.valid && !(st.failedProxies.contains p.id)) with
    | nil => rw [hf] at hmem; exact absurd hmem (List.not_mem_nil p)
    | cons a l => rfl
  simp only [get_random_proxy] at hq
  rw [hne] at hq
  simp only [Bool.false_eq_true, if_false] at hq
  rw [hfilterne] at hq
  simp only [Bool.false_eq_true, if_false] at hq
  have hqmem : q ∈ st.proxyCache.filter
      (fun p => p.valid && !(st.failedProxies.contains p.id)) :=
    List.get?_mem hq
  rw [List.mem_filter] at hqmem
  obtain ⟨hv, hnf⟩ : q.valid = true ∧ (!(st.failedProxies.contains q.id)) = true := by
    have hb := hqmem.2
    exact Bool.and_eq_true_iff.mp hb
  refine ⟨hv, fun hqf => ?_⟩
  have h1 : st.failedProxies.contains q.id = true := List.elem_eq_true_of_mem hqf
  rw [h1] at hnf
  exact Bool.noConfusion hnf

/-- Witness for C7 (amended): a two-proxy cache where proxy 2 is failed;
the selector (index 0) returns proxy 1, which is valid and unfailed. -/
theorem C7_failed_proxy_quarantine_witness :
    (get_random_proxy ⟨[⟨1, true⟩, ⟨2, true⟩], [2]⟩ 0).1 = some ⟨1, true⟩ ∧
    ((1 : Nat) ∉ ([2] : List Nat) ∧ Proxy.valid ⟨1, true⟩ = true) := by
  have h := C7_failed_proxy_quarantine ⟨[⟨1, true⟩, ⟨2, true⟩], [2]⟩ 0 ⟨1, true⟩
    ⟨⟨1, true⟩, by decide, rfl, by decide⟩ rfl
  exact ⟨rfl, h.2, h.1⟩

/-! ## Classified retry backoff (collectors/oliveyoung_collector_curl.py)

Embeds `_retry_request` of the curl-cffi collector, which classifies the
caught error: a rate-limiting error (raised by `_get_with_delay` /
`_post_with_delay` on HTTP 429) backs off `base_delay * 5 ** attempt`
plus a jitter drawn from [5, 10]; every other error backs off
`base_delay * 2 ** (attempt - 1)` plus a jitter drawn from [2, 5].  The
jitter samples are passed in as a list, one per attempt. -/

/-- Outcome of a single attempt inside the curl retry wrapper. -/
inductive CurlOutcome
  | ok
  | rateLimited
  | connError
deriving DecidableEq, Repr

/-- Backoff used for the rate-limited class at 1-based `attempt`. -/
def rateLimitBackoff (base_delay : ℚ) (attempt : Nat) (jitter : ℚ) : ℚ :=
  base_delay * 5 ^ attempt + jitter

/-- Backoff used for every other retryable class at 1-based `attempt`. -/
def normalBackoff (base_delay : ℚ) (attempt : Nat) (jitter : ℚ) : ℚ :=
  base_delay * 2 ^ (attempt - 1) + jitter

/-- Sleep intervals produced by `_retry_request`: the loop runs attempts
1..max_retry; a failing attempt below the bound sleeps its classified
backoff; the final attempt re-raises without sleeping; a success stops. -/
def curlRetrySleeps (base_delay : ℚ) (max_retry : Nat)
    (outcomes : List CurlOutcome) (jitters : List ℚ) : List ℚ :=
  go 1 outcomes jitters
where
  go : Nat → List CurlOutcome → List ℚ → List ℚ
    | _, [], _ => []
    | _, _, [] => []
    | attempt, o :: os, j :: js =>
      match o with
      | .ok => []
      | .rateLimited =>
        if attempt = max_retry then []
        else rateLimitBackoff base_delay attempt j :: go (attempt + 1) os js
      | .connError =>
        if attempt = max_retry then []
        else normalBackoff base_delay attempt j :: go (attempt + 1) os js

/-- C8 — Rate-limit backoff ordering: for a [429, 429, 200] outcome
sequence the wrapper (with its source defaults `base_delay = 2`,
`max_retry = 3`) sleeps exactly twice, with strictly increasing
intervals, and each interval strictly exceeds the corresponding interval
of a [timeout, timeout, 200] run, for any jitters drawn from the
respective windows ([5,10] for rate-limited, [2,5] otherwise). -/
theorem C8_rate_limit_backoff_ordering (j1 j2 k1 k2 : ℚ)
    (hj1 : 5 ≤ j1 ∧ j1 ≤ 10) (hj2 : 5 ≤ j2 ∧ j2 ≤ 10)
    (hk1 : 2 ≤ k1 ∧ k1 ≤ 5) (hk2 : 2 ≤ k2 ∧ k2 ≤ 5) :
    curlRetrySleeps 2 3 [.rateLimited, .rateLimited, .ok] [j1, j2, 0] =
      [10 + j1, 50 + j2] ∧
    curlRetrySleeps 2 3 [.connError, .connError, .ok] [k1, k2, 0] =
      [2 + k1, 4 + k2] ∧
    (curlRetrySleeps 2 3 [.rateLimited, .rateLimited, .ok] [j1, j2, 0]).length = 2 ∧
    10 + j1 < 50 + j2 ∧
    2 + k1 < 10 + j1 ∧
    4 + k2 < 50 + j2 := by
  obtain ⟨hj1a, hj1b⟩ := hj1
  obtain ⟨hj2a, hj2b⟩ := hj2
  obtain ⟨hk1a, hk1b⟩ := hk1
  obtain ⟨hk2a, hk2b⟩ := hk2
  have h429 : curlRetrySleeps 2 3 [.rateLimited, .rateLimited, .ok] [j1, j2, 0] =
      [10 + j1, 50 + j2] := by
    show [rateLimitBackoff 2 1 j1, rateLimitBackoff 2 2 j2] = [10 + j1, 50 + j2]
    unfold rateLimitBackoff
    norm_num
  have htmo : curlRetrySleeps 2 3 [.connError, .connError, .ok] [k1, k2, 0] =
      [2 + k1, 4 + k2] := by
    show [normalBackoff 2 1 k1, normalBackoff 2 2 k2] = [2 + k1, 4 + k2]
    unfold normalBackoff
    norm_num
  refine ⟨h429, htmo, by rw [h429]; rfl, by linarith, by linarith, by linarith⟩

/-- Witness for C8: concrete jitters at the window edges. -/
theorem C8_rate_limit_backoff_ordering_witness :
    curlRetrySleeps 2 3 [.rateLimited, .rateLimited, .ok] [5, 10, 0] =
      [10 + 5, 50 + 10] ∧
    curlRetrySleeps 2 3 [.connError, .connError, .ok] [5, 2, 0] =
      [2 + 5, 4 + 2] ∧
    (10 : ℚ) + 5 < 50 + 10 ∧ (2 : ℚ) + 5 < 10 + 5 ∧ (4 : ℚ) + 2 < 50 + 10 := by
  have h := C8_rate_limit_backoff_ordering 5 10 5 2
    (by norm_num) (by norm_num) (by norm_num) (by norm_num)
  exact ⟨h.1, h.2.1, h.2.2.2.1, h.2.2.2.2.1, h.2.2.2.2.2⟩

/-! ## Request traces (collectors/oliveyoung_collector.py)

Embeds the request-issuing paths of the plain (requests-based) collector
as event traces: `_get_with_delay` sleeps `random.uniform(2.0, 3.0)`
before every GET, while `fetch_ingredients` posts the ingredient form
through `self.session.post` directly. -/

inductive HttpMethod
  | get
  | post
deriving DecidableEq, Repr

inductive RequestEvent
  | delay (lo hi : ℚ)
  | request (m : HttpMethod) (url : String)
deriving DecidableEq, Repr

/-- Embeds `_get_with_delay`: a uniform random sleep over [2.0, 3.0]
seconds, then the GET request. -/
def get_with_delay_trace (url : String) : List RequestEvent :=
  [.delay 2 3, .request .get url]

/-- Embeds the first attempt of `fetch_ingredients` (the lambda handed to
`_retry_request` calls `self.session.post(OLIVEYOUNG_INGREDIENT_URL, ...)`
directly, not `_get_with_delay` nor any delayed wrapper). -/
def fetch_ingredients_trace : List RequestEvent :=
  [.request .post "https://www.oliveyoung.co.kr/store/goods/getGoodsArtcAjax.do"]

/-- Every request event of the trace is immediately preceded by a delay
event (the flag carries whether the previous event was a delay). -/
def preDelayedFrom (prevIsDelay : Bool) : List RequestEvent → Bool
  | [] => true
  | .delay _ _ :: rest => preDelayedFrom true rest
  | .request _ _ :: rest => prevIsDelay && preDelayedFrom false rest

/-- A trace in which no request is sent without a pre-delay. -/
def requestsPreDelayed (events : List RequestEvent) : Bool :=
  preDelayedFrom false events

/-- C6 counterexample: the ingredient-information POST issued by
`fetch_ingredients` is an outbound request with no preceding randomized
delay, so the claim that every request path (the ingredient POST
included) waits a pre-delay is false on the code. -/
theorem C6_pre_delay_counterexample :
    fetch_ingredients_trace =
      [RequestEvent.request HttpMethod.post
        "https://www.oliveyoung.co.kr/store/goods/getGoodsArtcAjax.do"] ∧
    requestsPreDelayed fetch_ingredients_trace = false := by
  exact ⟨rfl, rfl⟩

/-- C6 (amended) — Pre-delay on the GET paths only: every page request
issued through `_get_with_delay` (category listing pages and product
detail pages) is immediately preceded by a delay drawn uniformly from
the [2, 3] second window, whereas the ingredient-information POST of
`fetch_ingredients` is sent without any pre-delay. -/
theorem C6_randomized_pre_delay (url : String) :
    get_with_delay_trace url = [.delay 2 3, .request .get url] ∧
    requestsPreDelayed (get_with_delay_trace url) = true ∧
    requestsPreDelayed fetch_ingredients_trace = false := by
  exact ⟨rfl, rfl, rfl⟩

/-! ## Required-field validation (collectors/oliveyoung_collector.py) -/

/-- The price sub-dictionary of an extracted detail record. -/
structure Price where
  original : Option Int
  current : Option Int
deriving DecidableEq, Repr

/-- The slice of an extracted detail record that
`_validate_required_fields` inspects and mutates.  `none` models a
Python-falsy value (absent key, `None`, empty string, empty dict). -/
structure ProductInfo where
  brand : Option String
  name : Option String
  price : Option Price
deriving DecidableEq, Repr

/-- Python truthiness of an optional string (empty string is falsy). -/
def truthyStr : Option String → Bool
  | none => false
  | some s => !(s == "")

/-- Python truthiness of an optional integer (zero is falsy). -/
def truthyInt : Option Int → Bool
  | none => false
  | some v => !(v == 0)

/-- Embeds `_validate_required_fields`: a falsy brand or name receives a
default value and no longer counts as missing; a falsy price receives the
all-`None` dictionary but stays missing, failing validation; a present
price whose `original` and `current` are both falsy also fails.  Returns
the verdict together with the (mutated) record. -/
def validate_required_fields (product_info : ProductInfo) (goods_no : String) :
    Bool × ProductInfo :=
  let brand1 := if truthyStr product_info.brand then product_info.brand
    else some "올리브영"
  let name1 := if truthyStr product_info.name then product_info.name
    else some ("올리브영 상품 " ++ goods_no)
  let price1 := if product_info.price.isNone then some (⟨none, none⟩ : Price)
    else product_info.price
  let p3 : ProductInfo := ⟨brand1, name1, price1⟩
  if product_info.price.isNone then (false, p3)
  else
    match price1 with
    | some pr =>
      if truthyInt pr.original || truthyInt pr.current then (true, p3) else (false, p3)
    | none => (true, p3)

/-- Embeds the use site in `collect_product_detail`: a record failing
validation makes the collector return `None`, so the record never enters
the save batch. -/
def validate_and_keep (product_info : ProductInfo) (goods_no : String) :
    Option ProductInfo :=
  if (validate_required_fields product_info goods_no).1 then
    some (validate_required_fields product_info goods_no).2
  else none

/-- C9 — Required-field validation: a record missing only `brand` is
retained with the default brand `올리브영`; a record whose price carries
no value at all (absent, or present with both components falsy) is
rejected and excluded from the batch. -/
theorem C9_required_field_validation (p : ProductInfo) (g : String)
    (pr : Price) :
    (truthyStr p.brand = false → truthyStr p.name = true →
      p.price = some pr → (truthyInt pr.original || truthyInt pr.current) = true →
      (validate_required_fields p g).1 = true ∧
      (validate_required_fields p g).2.brand = some "올리브영" ∧
      validate_and_keep p g = some (validate_required_fields p g).2) ∧
    (p.price = none →
      (validate_required_fields p g).1 = false ∧ validate_and_keep p g = none) ∧
    (p.price = some pr → truthyInt pr.original = false → truthyInt pr.current = false →
      (validate_required_fields p g).1 = false ∧ validate_and_keep p g = none) := by
  obtain ⟨pb, pn, pp⟩ := p
  refine ⟨?_, ?_, ?_⟩
  · intro hb hn hp hval
    simp only at hb hn hp
    subst hp
    have hres : validate_required_fields ⟨pb, pn, some pr⟩ g =
        (true, ⟨some "올리브영", pn, some pr⟩) := by
      unfold validate_required_fields
      simp only [hb, hn, hval, Option.isNone_some, Bool.false_eq_true, if_false, if_true]
    refine ⟨by rw [hres], by rw [hres], ?_⟩
    unfold validate_and_keep
    rw [hres]
    rfl
  · intro hp
    simp only at hp
    subst hp
    have hres : (validate_required_fields ⟨pb, pn, none⟩ g).1 = false := by
      unfold validate_required_fields
      simp
    refine ⟨hres, ?_⟩
    unfold validate_and_keep
    rw [hres]
    rfl
  · intro hp ho hc
    simp only at hp
    subst hp
    have hres : (validate_required_fields ⟨pb, pn, some pr⟩ g).1 = false := by
      unfold validate_required_fields
      simp only [Option.isNone_some, Bool.false_eq_true, if_false, ho, hc, Bool.or_false]
    refine ⟨hres, ?_⟩
    unfold validate_and_keep
    rw [hres]
    rfl

/-- Witness for C9: a record with no brand but a real price is retained
with the default brand; a record with a valueless price dict is dropped;
a record with no price at all is dropped. -/
theorem C9_required_field_validation_witness :
    ((validate_required_fields ⟨none, some "toner", some ⟨some 12000, some 9900⟩⟩ "A1").1 = true ∧
      (validate_required_fields ⟨none, some "toner", some ⟨some 12000, some 9900⟩⟩ "A1").2.brand =
        some "올리브영") ∧
    validate_and_keep ⟨some "brandX", some "toner", some ⟨none, none⟩⟩ "A2" = none ∧
    validate_and_keep ⟨some "brandX", some "toner", none⟩ "A3" = none := by
  have h1 := (C9_required_field_validation ⟨none, some "toner", some ⟨some 12000, some 9900⟩⟩
    "A1" ⟨some 12000, some 9900⟩).1 rfl rfl rfl rfl
  have h2 := (C9_required_field_validation ⟨some "brandX", some "toner", some ⟨none, none⟩⟩
    "A2" ⟨none, none⟩).2.2 rfl rfl rfl
  have h3 := (C9_required_field_validation ⟨some "brandX", some "toner", none⟩
    "A3" ⟨none, none⟩).2.1 rfl
  exact ⟨⟨h1.1, h1.2.1⟩, h2.2, h3.2⟩

/-! ## Gap detection and its silenced errors (retry/utils.py, retry/manager.py) -/

/-- A missing-product row as returned by the gap-detection query of
`find_missing_products`. -/
structure MissingProduct where
  goods_no : String
  name : Option String
  brand : Option String
  brandId : Option Nat
  disp_cat_no : String
deriving DecidableEq, Repr

/-- Outcome of the gap-detection SQL query (`session.execute`): either
the rows, or a raised database error. -/
inductive DbQueryResult
  | ok (rows : List MissingProduct)
  | dbError (msg : String)
deriving DecidableEq, Repr

/-- Embeds `find_missing_products`: on a successful query it returns the
converted rows; on `SQLAlchemyError` (or any other exception) it logs and
returns the empty list instead of propagating. -/
def find_missing_products (result : DbQueryResult) : List MissingProduct :=
  match result with
  | .ok rows => rows
  | .dbError _ => []

/-- The result dictionary of `process_missing_products`. -/
structure ProcessResult where
  success : Bool
  success_count : Nat
  fail_count : Nat
  message : String
deriving DecidableEq, Repr

/-- Embeds `process_missing_products` around the gap-detection call: when
`find_missing_products` produces no rows the function short-circuits with
an overall success and zero counts; otherwise retry records are created
and the queue is processed (abstracted as `process_queue`, the composition
of `_create_retry_records` and `_process_retry_queue`). -/
def process_missing_products (queryResult : DbQueryResult)
    (process_queue : List MissingProduct → ProcessResult) : ProcessResult :=
  let missing_products := find_missing_products queryResult
  if missing_products.isEmpty then
    { success := true, success_count := 0, fail_count := 0, message := "누락된 제품 없음" }
  else
    process_queue missing_products

/-- C10 — Gap-detection errors are silenced: any database error in the
missing-product query is swallowed (`find_missing_products` returns `[]`),
after which `process_missing_products` reports overall success with zero
success/fail counts — exactly the result of a run with genuinely no gaps,
so the two situations are indistinguishable at the public result. -/
theorem C10_gap_detection_errors_silenced (msg : String)
    (process_queue : List MissingProduct → ProcessResult) :
    find_missing_products (.dbError msg) = [] ∧
    process_missing_products (.dbError msg) process_queue =
      { success := true, success_count := 0, fail_count := 0,
        message := "누락된 제품 없음" } ∧
    process_missing_products (.dbError msg) process_queue =
      process_missing_products (.ok []) process_queue := by
  exact ⟨rfl, rfl, rfl⟩

/-! ## History store (api/product_api.py)

Embeds `ProductAPI._save_to_history_table` and
`ProductAPI._get_or_create_brand` over an explicit database state: the
`cosmetics_products_history` table (whose composite primary key is
(goods_no, disp_cat_no, year, week_of_year), models/database.py) and the
`cosmetics_brands` table.  A bulk insert succeeds exactly when it
respects the composite primary key (no inserted key already stored, no
duplicate key inside the inserted batch); on failure the whole session —
flushed brand rows included — rolls back. -/

/-- A calendar date standing in for a Python `datetime` (`.year`,
`.month`, `.day`, `.isocalendar()`). -/
structure Date where
  year : Nat
  month : Nat
  day : Nat
deriving DecidableEq, Repr

/-- The rating sub-dictionary of a product record. -/
structure Rating where
  percent : Option ℚ
  text : Option ℚ
deriving DecidableEq, Repr

/-- The dictionary fields `_save_to_history_table` reads from each
product of the input batch. -/
structure SaveProduct where
  goods_no : Option String
  disp_cat_no : Option String
  site : Option String
  item_no : Option String
  product_url : Option String
  brandId : Option Nat
  brand : Option String
  name : Option String
  image_url : Option String
  price : Option Price
  rating : Option Rating
  review_count : Option Int
  popularity_rank : Option Nat
  sales_rank : Option Nat
deriving DecidableEq, Repr

/-- A row of `cosmetics_products_history` (models/database.py). -/
structure HistoryRow where
  goods_no : String
  disp_cat_no : String
  year : Nat
  week_of_year : Nat
  site : String
  collected_at : Date
  item_no : Option String
  product_url : Option String
  brandId : Option Nat
  name : Option String
  image_url : Option String
  price_original : Option Int
  price_current : Option Int
  rating_percent : Option ℚ
  rating_text : Option ℚ
  review_count : Option Int
  popularity_rank : Option Nat
  sales_rank : Option Nat
  month : Nat
deriving DecidableEq, Repr

/-- A row of `cosmetics_brands` (models/database.py). -/
structure CosmBrand where
  id : Nat
  name : String
  is_active : Nat
deriving DecidableEq, Repr

/-- The database state owned by the history store. -/
structure Db where
  history : List HistoryRow
  brands : List CosmBrand
  next_brand_id : Nat
deriving DecidableEq, Repr

/-- The composite primary key of a history row. -/
def rowKey (r : HistoryRow) : String × String × Nat × Nat :=
  (r.goods_no, r.disp_cat_no, r.year, r.week_of_year)

/-- The candidate composite key of an input product for the effective
(year, week). -/
def productKey (p : SaveProduct) (year week : Nat) : String × String × Nat × Nat :=
  (p.goods_no.getD "", p.disp_cat_no.getD "", year, week)

/-- Embeds `_get_or_create_brand`: a falsy brand name yields `None`;
otherwise the brand is looked up by name, and created (with the next
fresh id, mirroring the autoincrement primary key) when absent. -/
def get_or_create_brand (db : Db) (brand_name : Option String) : Option Nat × Db :=
  if truthyStr brand_name then
    let bn := brand_name.getD ""
    match db.brands.find? (fun b => b.name == bn) with
    | some b => (some b.id, db)
    | none =>
        (some db.next_brand_id,
         { db with brands := db.brands ++ [⟨db.next_brand_id, bn, 1⟩],
                   next_brand_id := db.next_brand_id + 1 })
  else (none, db)

/-- Embeds the brand-resolution block of the insertion loop: an existing
`brandId` on the record is used verbatim; otherwise a truthy brand name
is resolved through the per-batch cache or `_get_or_create_brand` (the
result, even `None`, is cached); a falsy name yields `None`. -/
def resolve_brand (db : Db) (cache : List (String × Option Nat)) (p : SaveProduct) :
    Option Nat × List (String × Option Nat) × Db :=
  match p.brandId with
  | some b => (some b, cache, db)
  | none =>
    if truthyStr p.brand then
      let bn := p.brand.getD ""
      match cache.find? (fun e => e.1 == bn) with
      | some e => (e.2, cache, db)
      | none =>
        let r := get_or_create_brand db p.brand
        (r.1, (bn, r.1) :: cache, r.2)
    else (none, cache, db)

/-- Embeds the `CosmeticsProductHistory(...)` constructor call of the
insertion loop. -/
def build_history_record (p : SaveProduct) (brand_id : Option Nat)
    (collection_date : Date) (year month week_of_year : Nat) : HistoryRow :=
  { site := p.site.getD "oliveyoung"
    collected_at := collection_date
    goods_no := p.goods_no.getD ""
    disp_cat_no := p.disp_cat_no.getD ""
    item_no := p.item_no
    product_url := p.product_url
    brandId := brand_id
    name := p.name
    image_url := p.image_url
    price_original := (p.price.getD ⟨none, none⟩).original
    price_current := (p.price.getD ⟨none, none⟩).current
    rating_percent := (p.rating.getD ⟨none, none⟩).percent
    rating_text := (p.rating.getD ⟨none, none⟩).text
    review_count := p.review_count
    popularity_rank := p.popularity_rank
    sales_rank := p.sales_rank
    year := year
    month := month
    week_of_year := week_of_year }

/-- Embeds the filtering/insertion loop (step 4 of
`_save_to_history_table`): products whose key already exists are skipped;
for the rest the brand is resolved (threading the per-batch cache and any
flushed brand creations) and a history record is built. -/
def build_records_to_insert (existing_keys : List (String × String × Nat × Nat))
    (collection_date : Date) (year month week_of_year : Nat) :
    List SaveProduct → List (String × Option Nat) → Db → List HistoryRow × Db
  | [], _, db => ([], db)
  | p :: rest, cache, db =>
    if existing_keys.contains (productKey p year week_of_year) then
      build_records_to_insert existing_keys collection_date year month week_of_year
        rest cache db
    else
      let rb := resolve_brand db cache p
      let row := build_history_record p rb.1 collection_date year month week_of_year
      let built := build_records_to_insert existing_keys collection_date year month
        week_of_year rest rb.2.1 rb.2.2
      (row :: built.1, built.2)

/-- The inserted batch respects the composite primary key internally. -/
def keysNodup : List HistoryRow → Bool
  | [] => true
  | r :: rs => !((rs.map rowKey).contains (rowKey r)) && keysNodup rs

/-- The (goods_no, disp_cat_no) pairs of a batch (`query_pairs`). -/
def batchPairs (ps : List SaveProduct) : List (String × String) :=
  ps.map (fun p => (p.goods_no.getD "", p.disp_cat_no.getD ""))

/-- Embeds the bulk duplicate-key query (step 3 of
`_save_to_history_table`): the keys of stored rows carrying the effective
(year, week) whose (goods_no, disp_cat_no) pair occurs in the batch. -/
def historyExistingKeys (db : Db) (pairs : List (String × String)) (year week : Nat) :
    List (String × String × Nat × Nat) :=
  (db.history.filter (fun r =>
    r.year == year && r.week_of_year == week &&
      pairs.contains (r.goods_no, r.disp_cat_no))).map rowKey

/-- Embeds `_save_to_history_table`.  The effective year falls back to
the calendar year of the collection date and the effective week to its
ISO week number; valid products need truthy `goods_no` and
`disp_cat_no`; existing composite keys for the effective (year, week) and
the batch pairs are bulk-queried and the corresponding products skipped;
the surviving records are bulk-inserted in one transaction that respects
the composite primary key, rolling everything (flushed brands included)
back on failure.  A batch whose surviving set is empty reports success. -/
def save_to_history_table (db : Db) (products : List SaveProduct)
    (collection_date : Date) (target_year target_week : Option Nat) : Bool × Db :=
  if products.isEmpty then (false, db)
  else
    let year := target_year.getD collection_date.year
    let month := collection_date.month
    let week_of_year := target_week.getD
      (isoCalendar collection_date.year collection_date.month collection_date.day).2
    let valid_products := products.filter
      (fun p => truthyStr p.goods_no && truthyStr p.disp_cat_no)
    if valid_products.isEmpty then (false, db)
    else
      let query_pairs := batchPairs valid_products
      let existing_keys := historyExistingKeys db query_pairs year week_of_year
      let built := build_records_to_insert existing_keys collection_date year month
        week_of_year valid_products [] db
      let records_to_insert := built.1
      if records_to_insert.isEmpty then (true, db)
      else if keysNodup records_to_insert &&
          records_to_insert.all
            (fun r => !((db.history.map rowKey).contains (rowKey r))) then
        (true, { history := built.2.history ++ records_to_insert,
                 brands := built.2.brands,
                 next_brand_id := built.2.next_brand_id })
      else (false, db)

lemma get_or_create_brand_history (db : Db) (bn : Option String) :
    (get_or_create_brand db bn).2.history = db.history := by
  simp only [get_or_create_brand]
  split
  · split <;> rfl
  · rfl

lemma resolve_brand_history (db : Db) (cache : List (String × Option Nat))
    (p : SaveProduct) : (resolve_brand db cache p).2.2.history = db.history := by
  simp only [resolve_brand]
  split
  · rfl
  · split
    · split
      · rfl
      · exact get_or_create_brand_history db p.brand
    · rfl

lemma build_records_history (ek : List (String × String × Nat × Nat)) (cd : Date)
    (y m w : Nat) : ∀ (ps : List SaveProduct) (cache : List (String × Option Nat))
    (db : Db), (build_records_to_insert ek cd y m w ps cache db).2.history = db.history := by
  intro ps
  induction ps with
  | nil => intro cache db; rfl
  | cons p rest ih =>
    intro cache db
    simp only [build_records_to_insert]
    split
    · exact ih cache db
    · rw [ih _ _]
      exact resolve_brand_history db cache p

lemma build_records_year_week (ek : List (String × String × Nat × Nat)) (cd : Date)
    (y m w : Nat) : ∀ (ps : List SaveProduct) (cache : List (String × Option Nat))
    (db : Db), ∀ r ∈ (build_records_to_insert ek cd y m w ps cache db).1,
      r.year = y ∧ r.week_of_year = w := by
  intro ps
  induction ps with
  | nil => intro cache db r hr; exact absurd hr (List.not_mem_nil r)
  | cons p rest ih =>
    intro cache db r hr
    simp only [build_records_to_insert] at hr
    split at hr
    · exact ih cache db r hr
    · rw [List.mem_cons] at hr
      rcases hr with hr | hr
      · subst hr
        exact ⟨rfl, rfl⟩
      · exact ih _ _ r hr

lemma save_history_rows (db : Db) (products : List SaveProduct) (cd : Date)
    (ty tw : Option Nat) :
    ∀ r ∈ (save_to_history_table db products cd ty tw).2.history,
      r ∈ db.history ∨
        (r.year = ty.getD cd.year ∧
         r.week_of_year = tw.getD (isoCalendar cd.year cd.month cd.day).2) := by
  intro r hr
  simp only [save_to_history_table] at hr
  split at hr
  · exact Or.inl hr
  · split at hr
    · exact Or.inl hr
    · split at hr
      · exact Or.inl hr
      · split at hr
        · simp only [build_records_history] at hr
          rw [List.mem_append] at hr
          rcases hr with hr | hr
          · exact Or.inl hr
          · exact Or.inr (build_records_year_week _ _ _ _ _ _ _ _ r hr)
        · exact Or.inl hr

/-- C4 (amended) — Effective week computation: when both `target_year`
and `target_week` are supplied, every row the append stores carries
exactly that (year, week); when they are omitted the stored year is the
collection date's **calendar** year and the stored week its ISO week
number — which is the ISO calendar pair except on boundary dates whose
ISO year differs from the calendar year. -/
theorem C4_save_effective_week (db : Db) (products : List SaveProduct)
    (cd : Date) (ty tw : Nat) :
    (∀ r ∈ (save_to_history_table db products cd (some ty) (some tw)).2.history,
      r ∈ db.history ∨ (r.year = ty ∧ r.week_of_year = tw)) ∧
    (∀ r ∈ (save_to_history_table db products cd none none).2.history,
      r ∈ db.history ∨
        (r.year = cd.year ∧
         r.week_of_year = (isoCalendar cd.year cd.month cd.day).2)) :=
  ⟨fun r hr => save_history_rows db products cd (some ty) (some tw) r hr,
   fun r hr => save_history_rows db products cd none none r hr⟩

/-- A concrete product record used by the effective-week and idempotence
analyses. -/
def sampleProduct : SaveProduct :=
  { goods_no := some "A000000148402"
    disp_cat_no := some "100000100010008"
    site := none
    item_no := some "001"
    product_url := none
    brandId := some 7
    brand := none
    name := some "sample toner"
    image_url := none
    price := some ⟨some 12000, some 9900⟩
    rating := none
    review_count := some 120
    popularity_rank := some 3
    sales_rank := some 11 }

/-- The empty database state. -/
def emptyDb : Db :=
  { history := [], brands := [], next_brand_id := 1 }

/-- C4 counterexample: collected on 2025-12-29 (ISO calendar (2026, 1))
with no explicit targets, the append succeeds but stores
(year, week) = (2025, 1): the stored year is the calendar year, not the
ISO year the claim requires. -/
theorem C4_effective_week_counterexample :
    (save_to_history_table emptyDb [sampleProduct] ⟨2025, 12, 29⟩ none none).1 = true ∧
    ((save_to_history_table emptyDb [sampleProduct] ⟨2025, 12, 29⟩ none none).2.history.map
      (fun r => (r.year, r.week_of_year))) = [(2025, 1)] ∧
    isoCalendar 2025 12 29 = (2026, 1) ∧
    ((2025 : Nat), (1 : Nat)) ≠ ((2026 : Nat), (1 : Nat)) := by
  refine ⟨by decide, by decide, by decide, by decide⟩

/-- Witness for C4 (amended): the explicit-target branch instantiated on
a concrete append into (2025, 30). -/
theorem C4_save_effective_week_witness :
    ∀ r ∈ (save_to_history_table emptyDb [sampleProduct] ⟨2025, 12, 29⟩
        (some 2025) (some 30)).2.history,
      r ∈ emptyDb.history ∨ (r.year = 2025 ∧ r.week_of_year = 30) :=
  (C4_save_effective_week emptyDb [sampleProduct] ⟨2025, 12, 29⟩ 2025 30).1

/-! ### Idempotence of the history append -/

/-- Occurrence count of a composite key in a key list. -/
def keyCount (ks : List (String × String × Nat × Nat))
    (k : String × String × Nat × Nat) : Nat :=
  (ks.filter (fun x => x = k)).length

lemma keyCount_append (a b : List (String × String × Nat × Nat))
    (k : String × String × Nat × Nat) :
    keyCount (a ++ b) k = keyCount a k + keyCount b k := by
  unfold keyCount
  rw [List.filter_append, List.length_append]

lemma keyCount_eq_zero (ks : List (String × String × Nat × Nat))
    (k : String × String × Nat × Nat) (h : k ∉ ks) : keyCount ks k = 0 := by
  induction ks with
  | nil => rfl
  | cons a t ih =>
    rw [List.mem_cons] at h
    push_neg at h
    unfold keyCount
    rw [List.filter_cons]
    have ha : (decide (a = k)) = false := by
      simp only [decide_eq_false_iff_not]
      exact fun hak => h.1 hak.symm
    rw [ha]
    simp only [Bool.false_eq_true, if_false]
    exact ih h.2

lemma keyCount_eq_one (ks : List (String × String × Nat × Nat))
    (k : String × String × Nat × Nat) (hnd : ks.Nodup) (hm : k ∈ ks) :
    keyCount ks k = 1 := by
  induction ks with
  | nil => exact absurd hm (List.not_mem_nil k)
  | cons a t ih =>
    rw [List.nodup_cons] at hnd
    rw [List.mem_cons] at hm
    unfold keyCount
    rw [List.filter_cons]
    rcases hm with hm | hm
    · rw [show (decide (a = k)) = true from by rw [hm]; simp]
      simp only [if_true, List.length_cons]
      have hz : keyCount t k = 0 := keyCount_eq_zero t k (by rw [hm]; exact hnd.1)
      unfold keyCount at hz
      rw [hz]
    · have ha : (decide (a = k)) = false := by
        simp only [decide_eq_false_iff_not]
        intro hak
        subst hak
        exact hnd.1 hm
      rw [ha]
      simp only [Bool.false_eq_true, if_false]
      exact ih hnd.2 hm

lemma mem_historyExistingKeys (db : Db) (pairs : List (String × String))
    (y w : Nat) (k : String × String × Nat × Nat) :
    k ∈ historyExistingKeys db pairs y w ↔
      (k ∈ db.history.map rowKey ∧ k.2.2.1 = y ∧ k.2.2.2 = w ∧ (k.1, k.2.1) ∈ pairs) := by
  unfold historyExistingKeys
  constructor
  · intro h
    rw [List.mem_map] at h
    obtain ⟨r, hr, rfl⟩ := h
    rw [List.mem_filter] at hr
    obtain ⟨hrdb, hcond⟩ := hr
    simp only [Bool.and_eq_true, beq_iff_eq] at hcond
    exact ⟨List.mem_map_of_mem rowKey hrdb, hcond.1.1, hcond.1.2,
      List.elem_iff.mp hcond.2⟩
  · intro hk
    obtain ⟨hdb, hy, hw, hp⟩ := hk
    rw [List.mem_map] at hdb ⊢
    obtain ⟨r, hr, hkr⟩ := hdb
    refine ⟨r, ?_, hkr⟩
    rw [List.mem_filter]
    refine ⟨hr, ?_⟩
    have h1 : r.goods_no = k.1 := by rw [← hkr]; rfl
    have h2 : r.disp_cat_no = k.2.1 := by rw [← hkr]; rfl
    have h3 : r.year = k.2.2.1 := by rw [← hkr]; rfl
    have h4 : r.week_of_year = k.2.2.2 := by rw [← hkr]; rfl
    simp only [Bool.and_eq_true, beq_iff_eq]
    refine ⟨⟨by rw [h3, hy], by rw [h4, hw]⟩, ?_⟩
    have hpair : (r.goods_no, r.disp_cat_no) = (k.1, k.2.1) := by rw [h1, h2]
    rw [hpair]
    exact List.elem_iff.mpr hp

lemma historyExistingKeys_subset (db : Db) (pairs : List (String × String))
    (y w : Nat) : ∀ k ∈ historyExistingKeys db pairs y w, k ∈ db.history.map rowKey :=
  fun k h => ((mem_historyExistingKeys db pairs y w k).mp h).1

lemma build_records_keys (ek : List (String × String × Nat × Nat)) (cd : Date)
    (y m w : Nat) : ∀ (ps : List SaveProduct) (cache : List (String × Option Nat))
    (db : Db),
    (build_records_to_insert ek cd y m w ps cache db).1.map rowKey =
      (ps.filter (fun p => !(ek.contains (productKey p y w)))).map
        (fun p => productKey p y w) := by
  intro ps
  induction ps with
  | nil => intro cache db; rfl
  | cons p rest ih =>
    intro cache db
    simp only [build_records_to_insert, List.filter_cons]
    cases hc : ek.contains (productKey p y w) with
    | true =>
      rw [if_pos rfl, if_neg (by simp)]
      exact ih cache db
    | false =>
      rw [if_neg (by simp), if_pos (by simp)]
      dsimp only
      rw [List.map_cons, ih]
      rfl

lemma keysNodup_eq_true : ∀ (rs : List HistoryRow),
    (rs.map rowKey).Nodup → keysNodup rs = true := by
  intro rs
  induction rs with
  | nil => intro _; rfl
  | cons r t ih =>
    intro h
    rw [List.map_cons, List.nodup_cons] at h
    unfold keysNodup
    rw [ih h.2]
    have hc : (t.map rowKey).contains (rowKey r) = false := by
      cases hc : (t.map rowKey).contains (rowKey r) with
      | false => rfl
      | true => exact absurd (List.elem_iff.mp hc) h.1
    rw [hc]
    rfl

lemma build_records_all_existing (ek : List (String × String × Nat × Nat)) (cd : Date)
    (y m w : Nat) : ∀ (ps : List SaveProduct) (cache : List (String × Option Nat))
    (db : Db), (∀ p ∈ ps, ek.contains (productKey p y w) = true) →
    build_records_to_insert ek cd y m w ps cache db = ([], db) := by
  intro ps
  induction ps with
  | nil => intro cache db _; rfl
  | cons p rest ih =>
    intro cache db hall
    simp only [build_records_to_insert]
    rw [if_pos (hall p (List.mem_cons_self p rest))]
    exact ih cache db (fun q hq => hall q (List.mem_cons_of_mem p hq))

lemma newKeys_not_mem_db (db : Db) (ps : List SaveProduct) (ty tw : Nat) :
    ∀ k ∈ (ps.filter (fun p =>
        !((historyExistingKeys db (batchPairs ps) ty tw).contains
          (productKey p ty tw)))).map (fun p => productKey p ty tw),
      k ∉ db.history.map rowKey := by
  intro k hk hkdb
  rw [List.mem_map] at hk
  obtain ⟨p, hp, rfl⟩ := hk
  rw [List.mem_filter] at hp
  have hek : productKey p ty tw ∈ historyExistingKeys db (batchPairs ps) ty tw := by
    apply (mem_historyExistingKeys db (batchPairs ps) ty tw (productKey p ty tw)).mpr
    refine ⟨hkdb, rfl, rfl, ?_⟩
    exact List.mem_map_of_mem _ hp.1
  have hc : (historyExistingKeys db (batchPairs ps) ty tw).contains
      (productKey p ty tw) = true := List.elem_iff.mpr hek
  have hp2 := hp.2
  rw [hc] at hp2
  exact Bool.noConfusion hp2

lemma save_unfold (db : Db) (ps : List SaveProduct) (cd : Date) (ty tw : Nat)
    (hne : ps.isEmpty = false)
    (hvalid : ∀ p ∈ ps, (truthyStr p.goods_no && truthyStr p.disp_cat_no) = true) :
    save_to_history_table db ps cd (some ty) (some tw) =
      (if (build_records_to_insert (historyExistingKeys db (batchPairs ps) ty tw)
            cd ty cd.month tw ps [] db).1.isEmpty then (true, db)
       else if keysNodup (build_records_to_insert
              (historyExistingKeys db (batchPairs ps) ty tw)
              cd ty cd.month tw ps [] db).1 &&
           (build_records_to_insert (historyExistingKeys db (batchPairs ps) ty tw)
              cd ty cd.month tw ps [] db).1.all
             (fun r => !((db.history.map rowKey).contains (rowKey r))) then
         (true,
          { history := (build_records_to_insert
                (historyExistingKeys db (batchPairs ps) ty tw)
                cd ty cd.month tw ps [] db).2.history ++
              (build_records_to_insert (historyExistingKeys db (batchPairs ps) ty tw)
                cd ty cd.month tw ps [] db).1,
            brands := (build_records_to_insert
                (historyExistingKeys db (batchPairs ps) ty tw)
                cd ty cd.month tw ps [] db).2.brands,
            next_brand_id := (build_records_to_insert
                (historyExistingKeys db (batchPairs ps) ty tw)
                cd ty cd.month tw ps [] db).2.next_brand_id })
       else (false, db)) := by
  have hfilter : ps.filter (fun p => truthyStr p.goods_no && truthyStr p.disp_cat_no) = ps :=
    List.filter_eq_self.mpr hvalid
  simp only [save_to_history_table, Option.getD_some, hfilter, hne, Bool.false_eq_true,
    if_false]

lemma save_all_existing (db : Db) (ps : List SaveProduct) (cd : Date) (ty tw : Nat)
    (hne : ps.isEmpty = false)
    (hvalid : ∀ p ∈ ps, (truthyStr p.goods_no && truthyStr p.disp_cat_no) = true)
    (hall : ∀ p ∈ ps, productKey p ty tw ∈ db.history.map rowKey) :
    save_to_history_table db ps cd (some ty) (some tw) = (true, db) := by
  rw [save_unfold db ps cd ty tw hne hvalid]
  have hcont : ∀ p ∈ ps,
      (historyExistingKeys db (batchPairs ps) ty tw).contains (productKey p ty tw) = true := by
    intro p hp
    apply List.elem_iff.mpr
    apply (mem_historyExistingKeys db (batchPairs ps) ty tw (productKey p ty tw)).mpr
    exact ⟨hall p hp, rfl, rfl, List.mem_map_of_mem _ hp⟩
  rw [build_records_all_existing (historyExistingKeys db (batchPairs ps) ty tw)
    cd ty cd.month tw ps [] db hcont]
  rfl

lemma save_explicit_call (db : Db) (ps : List SaveProduct) (cd : Date) (ty tw : Nat)
    (hne : ps.isEmpty = false)
    (hvalid : ∀ p ∈ ps, (truthyStr p.goods_no && truthyStr p.disp_cat_no) = true)
    (hkeysnd : (ps.map (fun p => productKey p ty tw)).Nodup) :
    (save_to_history_table db ps cd (some ty) (some tw)).1 = true ∧
    (save_to_history_table db ps cd (some ty) (some tw)).2.history.map rowKey =
      db.history.map rowKey ++
        (ps.filter (fun p =>
          !((historyExistingKeys db (batchPairs ps) ty tw).contains
            (productKey p ty tw)))).map (fun p => productKey p ty tw) := by
  rw [save_unfold db ps cd ty tw hne hvalid]
  have hkeys := build_records_keys (historyExistingKeys db (batchPairs ps) ty tw)
    cd ty cd.month tw ps [] db
  have hist := build_records_history (historyExistingKeys db (batchPairs ps) ty tw)
    cd ty cd.month tw ps [] db
  have hnewnd : ((ps.filter (fun p =>
      !((historyExistingKeys db (batchPairs ps) ty tw).contains
        (productKey p ty tw)))).map (fun p => productKey p ty tw)).Nodup := by
    have hsub : List.Sublist
        ((ps.filter (fun p =>
          !((historyExistingKeys db (batchPairs ps) ty tw).contains
            (productKey p ty tw)))).map (fun p => productKey p ty tw))
        (ps.map (fun p => productKey p ty tw)) :=
      (List.filter_sublist ps).map (fun p => productKey p ty tw)
    exact hkeysnd.sublist hsub
  set B := build_records_to_insert (historyExistingKeys db (batchPairs ps) ty tw)
    cd ty cd.month tw ps [] db with hB
  by_cases hempty : B.1.isEmpty = true
  · rw [if_pos hempty]
    refine ⟨rfl, ?_⟩
    have hnil : B.1 = [] := List.isEmpty_iff.mp hempty
    rw [hnil] at hkeys
    simp only [List.map_nil] at hkeys
    rw [← hkeys, List.append_nil]
  · rw [if_neg hempty]
    have hrecnd : (B.1.map rowKey).Nodup := by
      rw [hkeys]
      exact hnewnd
    have hchk1 : keysNodup B.1 = true := keysNodup_eq_true B.1 hrecnd
    have hchk2 : B.1.all (fun r => !((db.history.map rowKey).contains (rowKey r))) = true := by
      rw [List.all_eq_true]
      intro r hr
      have hkr : rowKey r ∈ (ps.filter (fun p =>
          !((historyExistingKeys db (batchPairs ps) ty tw).contains
            (productKey p ty tw)))).map (fun p => productKey p ty tw) := by
        rw [← hkeys]
        exact List.mem_map_of_mem rowKey hr
      have hnot := newKeys_not_mem_db db ps ty tw (rowKey r) hkr
      cases hc : (db.history.map rowKey).contains (rowKey r) with
      | false => rfl
      | true => exact absurd (List.elem_iff.mp hc) hnot
    rw [if_pos (by rw [hchk1, hchk2]; rfl)]
    refine ⟨rfl, ?_⟩
    dsimp only
    rw [hist, List.map_append, hkeys]

lemma newKeys_nodup (db : Db) (ps : List SaveProduct) (ty tw : Nat)
    (hkeysnd : (ps.map (fun p => productKey p ty tw)).Nodup) :
    ((ps.filter (fun p =>
      !((historyExistingKeys db (batchPairs ps) ty tw).contains
        (productKey p ty tw)))).map (fun p => productKey p ty tw)).Nodup := by
  have hsub : List.Sublist
      ((ps.filter (fun p =>
        !((historyExistingKeys db (batchPairs ps) ty tw).contains
          (productKey p ty tw)))).map (fun p => productKey p ty tw))
      (ps.map (fun p => productKey p ty tw)) :=
    (List.filter_sublist ps).map (fun p => productKey p ty tw)
  exact hkeysnd.sublist hsub

/-- C1 (amended) — Idempotent append for well-formed batches: for a
non-empty batch whose records all carry truthy `goods_no` and
`disp_cat_no` and whose (goods_no, disp_cat_no) pairs are pairwise
distinct, appending twice with the same explicit (target year, target
week) leaves exactly one stored row per composite key of the batch; the
second call succeeds, changes nothing (zero new rows), silently
discarding every record whose key already exists. -/
theorem C1_idempotent_append (db : Db) (ps : List SaveProduct) (cd : Date)
    (ty tw : Nat)
    (hwf : (db.history.map rowKey).Nodup)
    (hne : ps ≠ [])
    (hvalid : ∀ p ∈ ps, truthyStr p.goods_no = true ∧ truthyStr p.disp_cat_no = true)
    (hpairs : (batchPairs ps).Nodup) :
    (save_to_history_table (save_to_history_table db ps cd (some ty) (some tw)).2
        ps cd (some ty) (some tw)).1 = true ∧
    (save_to_history_table (save_to_history_table db ps cd (some ty) (some tw)).2
        ps cd (some ty) (some tw)).2 =
      (save_to_history_table db ps cd (some ty) (some tw)).2 ∧
    ∀ p ∈ ps,
      keyCount
        ((save_to_history_table (save_to_history_table db ps cd (some ty) (some tw)).2
            ps cd (some ty) (some tw)).2.history.map rowKey)
        (productKey p ty tw) = 1 := by
  have hne' : ps.isEmpty = false := by
    cases ps with
    | nil => exact absurd rfl hne
    | cons a t => rfl
  have hvalid' : ∀ p ∈ ps, (truthyStr p.goods_no && truthyStr p.disp_cat_no) = true := by
    intro p hp
    rw [(hvalid p hp).1, (hvalid p hp).2]
    rfl
  have hkeysnd : (ps.map (fun p => productKey p ty tw)).Nodup := by
    have hmap : ps.map (fun p => productKey p ty tw) =
        (batchPairs ps).map (fun q => (q.1, q.2, ty, tw)) := by
      unfold batchPairs
      rw [List.map_map]
      rfl
    rw [hmap]
    refine hpairs.map ?_
    intro a b hab
    simp only [Prod.mk.injEq] at hab
    exact Prod.ext hab.1 hab.2.1
  obtain ⟨h1true, h1keys⟩ := save_explicit_call db ps cd ty tw hne' hvalid' hkeysnd
  have hall : ∀ p ∈ ps,
      productKey p ty tw ∈
        (save_to_history_table db ps cd (some ty) (some tw)).2.history.map rowKey := by
    intro p hp
    rw [h1keys, List.mem_append]
    by_cases hmem : productKey p ty tw ∈ db.history.map rowKey
    · exact Or.inl hmem
    · right
      apply List.mem_map_of_mem
      rw [List.mem_filter]
      refine ⟨hp, ?_⟩
      cases hc : (historyExistingKeys db (batchPairs ps) ty tw).contains
          (productKey p ty tw) with
      | false => rfl
      | true =>
        exact absurd (historyExistingKeys_subset db (batchPairs ps) ty tw _
          (List.elem_iff.mp hc)) hmem
  have h2 := save_all_existing (save_to_history_table db ps cd (some ty) (some tw)).2
    ps cd ty tw hne' hvalid' hall
  refine ⟨by rw [h2], by rw [h2], ?_⟩
  intro p hp
  rw [h2]
  dsimp only
  rw [h1keys, keyCount_append]
  by_cases hmem : productKey p ty tw ∈ db.history.map rowKey
  · have c1 : keyCount (db.history.map rowKey) (productKey p ty tw) = 1 :=
      keyCount_eq_one _ _ hwf hmem
    have c0 : keyCount
        ((ps.filter (fun p =>
          !((historyExistingKeys db (batchPairs ps) ty tw).contains
            (productKey p ty tw)))).map (fun p => productKey p ty tw))
        (productKey p ty tw) = 0 := by
      apply keyCount_eq_zero
      intro hNK
      exact newKeys_not_mem_db db ps ty tw _ hNK hmem
    rw [c1, c0]
  · have c0 : keyCount (db.history.map rowKey) (productKey p ty tw) = 0 :=
      keyCount_eq_zero _ _ hmem
    have hNK : productKey p ty tw ∈ (ps.filter (fun p =>
        !((historyExistingKeys db (batchPairs ps) ty tw).contains
          (productKey p ty tw)))).map (fun p => productKey p ty tw) := by
      apply List.mem_map_of_mem
      rw [List.mem_filter]
      refine ⟨hp, ?_⟩
      cases hc : (historyExistingKeys db (batchPairs ps) ty tw).contains
          (productKey p ty tw) with
      | false => rfl
      | true =>
        exact absurd (historyExistingKeys_subset db (batchPairs ps) ty tw _
          (List.elem_iff.mp hc)) hmem
    have c1 : keyCount
        ((ps.filter (fun p =>
          !((historyExistingKeys db (batchPairs ps) ty tw).contains
            (productKey p ty tw)))).map (fun p => productKey p ty tw))
        (productKey p ty tw) = 1 :=
      keyCount_eq_one _ _ (newKeys_nodup db ps ty tw hkeysnd) hNK
    rw [c0, c1]

/-- C1 counterexample: a batch containing the same record twice violates
the composite primary key inside the bulk insert, so the whole
transaction rolls back — both calls return `False` and zero rows are
stored, not exactly one row per key with a successful second call. -/
theorem C1_idempotent_append_counterexample :
    (save_to_history_table
      (save_to_history_table emptyDb [sampleProduct, sampleProduct] ⟨2025, 7, 21⟩
        (some 2025) (some 30)).2
      [sampleProduct, sampleProduct] ⟨2025, 7, 21⟩ (some 2025) (some 30)).1 = false ∧
    (save_to_history_table
      (save_to_history_table emptyDb [sampleProduct, sampleProduct] ⟨2025, 7, 21⟩
        (some 2025) (some 30)).2
      [sampleProduct, sampleProduct] ⟨2025, 7, 21⟩ (some 2025) (some 30)).2.history = [] := by
  exact ⟨by decide, by decide⟩

/-- Witness for C1 (amended): a singleton batch appended twice into
(2025, 30) from the empty database — the second call succeeds and the
batch key is stored exactly once. -/
theorem C1_idempotent_append_witness :
    (save_to_history_table
      (save_to_history_table emptyDb [sampleProduct] ⟨2025, 7, 21⟩
        (some 2025) (some 30)).2
      [sampleProduct] ⟨2025, 7, 21⟩ (some 2025) (some 30)).1 = true ∧
    keyCount
      ((save_to_history_table
        (save_to_history_table emptyDb [sampleProduct] ⟨2025, 7, 21⟩
          (some 2025) (some 30)).2
        [sampleProduct] ⟨2025, 7, 21⟩ (some 2025) (some 30)).2.history.map rowKey)
      (productKey sampleProduct 2025 30) = 1 := by
  have h := C1_idempotent_append emptyDb [sampleProduct] ⟨2025, 7, 21⟩ 2025 30
    (by decide) (by decide) (by decide) (by decide)
  exact ⟨h.1, h.2.2 sampleProduct (List.mem_singleton.mpr rfl)⟩
